import Mathlib

/-!
Verification of the gammapy parameter / data-store excerpt.

This file gives a shallow embedding of `gammapy/modeling/parameter.py` and
`gammapy/data/data_store.py` (the parts the claims are about) and proves or
refutes the frozen claims against it.  Floating point numbers are modelled as
real numbers; `numpy.nan` sentinels for `min`/`max` are modelled as
`Option ℝ` with `none` playing the role of NaN.  Where a claim's behaviour
depends on genuine NaN propagation (log of a negative number), the
counterexample is chosen so that the verdict is the same under real-number
junk values and under IEEE NaN semantics; comments note this at each spot.
-/

noncomputable section

/-- Scale transform tag, source field `Parameter._scale_transform`
(`"lin" | "log" | "sqrt"`). -/
inductive ScaleTransform where
  | lin
  | log
  | sqrt
deriving DecidableEq

/-- Scale method tag, source field `Parameter._scale_method`
(`"scale10" | "factor1" | None`). -/
inductive ScaleMethod where
  | scale10
  | factor1
  | none
deriving DecidableEq

/-- Modelled from the spec: `gammapy.utils.interpolation.interpolation_scale`
is not under `src/`.  Spec 4.1: `lin` is the identity, `log` is
`log(value)`, `sqrt` is `sign(value)·sqrt(|value|)`.  This is the forward
direction (the `interp_scale(value)` call in `Parameter.transform`).
In the code `log` of a non-positive float yields NaN or -inf; here `Real.log`
takes its Mathlib junk value, and every theorem below that depends on the
log branch carries a positivity hypothesis, while the counterexamples are
placed at strictly negative inputs where the real-number verdict and the
NaN verdict agree. -/
def interpScale : ScaleTransform → ℝ → ℝ
  | .lin, x => x
  | .log, x => Real.log x
  | .sqrt, x => if x < 0 then -Real.sqrt (-x) else Real.sqrt x

/-- Modelled from the spec: inverse of `interpScale` (the
`interp_scale.inverse` call in `Parameter.inverse_transform`).  Spec 4.1:
`lin` identity, `log` is `exp(factor_raw)`, `sqrt` is inverse squaring
preserving sign. -/
def interpScaleInv : ScaleTransform → ℝ → ℝ
  | .lin, x => x
  | .log, x => Real.exp x
  | .sqrt, x => if x < 0 then -(x * x) else x * x

/-- Domain on which the forward transform round-trips
(`interpScaleInv (interpScale v) = v`): everywhere for `lin`/`sqrt`,
positive reals for `log`. -/
def TransformDom : ScaleTransform → ℝ → Prop
  | .lin, _ => True
  | .sqrt, _ => True
  | .log, v => 0 < v

/-- State of `gammapy.modeling.parameter.Parameter`, restricted to the
fields the claims are about.  `value`/`factor`/`scale` are the backing
fields `_value`/`_factor`/`_scale`; `min`/`max` use `none` for the
`numpy.nan` "unbounded" sentinel.  Fields not touched by any claim
(`unit`, scan min/max/values, interp, prior, link label) are omitted. -/
structure Parameter where
  name : String
  value : ℝ
  factor : ℝ
  scale : ℝ
  error : ℝ
  min : Option ℝ
  max : Option ℝ
  frozen : Bool
  scan_n_sigma : ℕ
  scale_method : ScaleMethod
  scale_transform : ScaleTransform

/-- Source `Parameter.transform(value)` with `update_scale=False`:
`interp_scale(value) / self.scale`. -/
def Parameter.transform (p : Parameter) (v : ℝ) : ℝ :=
  interpScale p.scale_transform v / p.scale

/-- Source `Parameter.inverse_transform(factor)`:
`interp_scale.inverse(self.scale * factor)`. -/
def Parameter.inverse_transform (p : Parameter) (f : ℝ) : ℝ :=
  interpScaleInv p.scale_transform (p.scale * f)

/-- Source `Parameter.update_scale(value)`: under `scale10`, when the
argument is nonzero, `scale = 10 ** floor(log10(|value|))`; under
`factor1`, `scale = value` (the argument, which at the call site in
`transform` is the already-transformed value); under `None` no rescaling. -/
def Parameter.update_scale (p : Parameter) (v : ℝ) : Parameter :=
  match p.scale_method with
  | .scale10 =>
      if v ≠ 0 then { p with scale := (10 : ℝ) ^ (⌊Real.logb 10 |v|⌋ : ℤ) } else p
  | .factor1 => { p with scale := v }
  | .none => p

/-- Source `Parameter.transform(value, update_scale=True)`: computes
`transformed_value = interp_scale(value)`, calls
`update_scale(transformed_value)`, then returns
`transformed_value / self.scale` with the updated scale.  Returned as the
updated state paired with the result. -/
def Parameter.transformUpdateScale (p : Parameter) (v : ℝ) : Parameter × ℝ :=
  let tv := interpScale p.scale_transform v
  let p1 := p.update_scale tv
  (p1, tv / p1.scale)

/-- Source `value` setter: stores `float(val)` in `_value` and recomputes
`_factor = self.transform(val)` with the current scale. -/
def Parameter.setValue (p : Parameter) (v : ℝ) : Parameter :=
  { p with value := v, factor := p.transform v }

/-- Source `factor` setter: stores `float(val)` in `_factor` and recomputes
`_value = self.inverse_transform(val)` with the current scale. -/
def Parameter.setFactor (p : Parameter) (f : ℝ) : Parameter :=
  { p with factor := f, value := p.inverse_transform f }

/-- Source `Parameter.autoscale()`:
`self.factor = self.transform(self.value, update_scale=True)`.  The
assignment goes through the `factor` property setter, so after the scale
update the `_value` backing field is re-derived as
`inverse_transform(factor)`. -/
def Parameter.autoscale (p : Parameter) : Parameter :=
  let r := p.transformUpdateScale p.value
  r.1.setFactor r.2

/-- Source `Parameter.__init__` for the fields modelled here: scale,
frozen flag and method/transform tags are stored first, then
`self.value = float(value)` runs the value setter, then bounds and scan
configuration are stored. -/
def Parameter.make (name : String) (value : ℝ) (scale : ℝ)
    (scale_method : ScaleMethod) (scale_transform : ScaleTransform) : Parameter :=
  Parameter.setValue
    { name := name, value := 0, factor := 0, scale := scale, error := 0,
      min := Option.none, max := Option.none, frozen := false, scan_n_sigma := 2,
      scale_method := scale_method, scale_transform := scale_transform } value

/-- Source `Parameter._step`: `error if error > 0 else abs(value)`. -/
def Parameter.step (p : Parameter) : ℝ :=
  if p.error > 0 then p.error else |p.value|

/-- Source `Parameter.conf_min`: the explicit minimum when it is set
(non-NaN), otherwise `value - step * scan_n_sigma` further clamped by
`np.minimum(·, -large_step * 1e5)` with `large_step = max(step, |value|)`. -/
def Parameter.conf_min (p : Parameter) : ℝ :=
  match p.min with
  | some m => m
  | none =>
      Min.min (p.value - p.step * (p.scan_n_sigma : ℝ))
        (-(Max.max p.step |p.value| * 100000))

/-- Source `Parameter.conf_max`: the explicit maximum when it is set
(non-NaN), otherwise `value + step * scan_n_sigma` further clamped by
`np.maximum(·, large_step * 1e5)` with `large_step = max(step, |value|)`. -/
def Parameter.conf_max (p : Parameter) : ℝ :=
  match p.max with
  | some m => m
  | none =>
      Max.max (p.value + p.step * (p.scan_n_sigma : ℝ))
        (Max.max p.step |p.value| * 100000)

/-- One public mutation of the value/factor pair: an assignment to
`p.value` or to `p.factor` (each running the corresponding setter). -/
inductive AssignOp where
  | setV (v : ℝ)
  | setF (f : ℝ)

/-- Apply one assignment. -/
def applyOp (p : Parameter) : AssignOp → Parameter
  | .setV v => p.setValue v
  | .setF f => p.setFactor f

/-- Apply a sequence of assignments in order. -/
def applyOps (p : Parameter) (ops : List AssignOp) : Parameter :=
  ops.foldl applyOp p

/-- The claimed round-trip invariant of the value/factor decomposition:
`p.value == p.inverse_transform(p.factor)` and
`p.factor == p.transform(p.value)`. -/
def ParamInvariant (p : Parameter) : Prop :=
  p.value = p.inverse_transform p.factor ∧ p.factor = p.transform p.value

/-- Heap of `Parameter` objects indexed by reference id.  A `Parameters`
container is a list of reference ids into the heap; two slots holding the
same id model two container slots referencing the same Python object
(linked parameters). -/
abbrev ParamHeap : Type := Nat → Parameter

/-- Source `restore_parameters_status.__init__` snapshot:
`self.values = [_.value for _ in parameters]` and
`self.frozen = [_.frozen for _ in parameters]`, taken at scope entry. -/
def entrySnapshot (refs : List Nat) (h : ParamHeap) : List (Nat × ℝ × Bool) :=
  refs.map fun r => (r, (h r).value, (h r).frozen)

/-- One iteration of the `__exit__` loop body for a single parameter:
`if self.restore_values: par.value = value` (the value property setter)
then `par.frozen = frozen`. -/
def restoreOne (restore_values : Bool) (p : Parameter) (v : ℝ) (fz : Bool) : Parameter :=
  let p1 := if restore_values then p.setValue v else p
  { p1 with frozen := fz }

/-- Source `restore_parameters_status.__exit__`: iterate over the zipped
snapshot in container order, restoring each referenced parameter. -/
def exitRestore (restore_values : Bool) : List (Nat × ℝ × Bool) → ParamHeap → ParamHeap
  | [], h => h
  | (r, v, fz) :: rest, h =>
      exitRestore restore_values rest
        (Function.update h r (restoreOne restore_values (h r) v fz))

/-- Source `Parameters.restore_status(restore_values)` used as a
`with`-scope: the snapshot is taken at entry, the body runs and produces
an arbitrary mutated heap together with a flag saying whether it raised,
and `__exit__` runs unconditionally — for a normal exit and for an error
exit alike (Python's `with` statement guarantees `__exit__`). -/
def restoreStatusRun (restore_values : Bool) (refs : List Nat) (h0 : ParamHeap)
    (body : ParamHeap → ParamHeap × Bool) : ParamHeap × Bool :=
  let snap := entrySnapshot refs h0
  let r := body h0
  (exitRestore restore_values snap r.1, r.2)

end

/-- Dynamic value assigned to `Parameter.frozen`, as the Python setter can
receive it: a bool (covering `np.bool_` as well), a string, or some other
non-boolean object (represented by an integer payload). -/
inductive PyVal where
  | pybool (b : Bool)
  | pystr (s : String)
  | pyint (n : Int)
deriving DecidableEq

/-- Source `frozen` setter (`parameter.py` lines 338-344):
`if val in ["True", "False"]: val = bool(val)` — Python `bool()` of a
non-empty string is `True` — then a `TypeError` is raised unless the
result is a bool; otherwise it is stored. -/
def frozenSetter : PyVal → Except String Bool
  | .pybool b => .ok b
  | .pystr s =>
      if s = "True" ∨ s = "False" then .ok (decide (s ≠ "")) else .error "TypeError"
  | .pyint _ => .error "TypeError"

/-- Row of the HDU index table (`HDUIndexTable`), spec section 3:
one row per (observation, HDU-type) pair. -/
structure HDURow where
  obs_id : Int
  hdu_type : String
  hdu_class : String
  file_dir : String
  file_name : String
  hdu_name : String
deriving DecidableEq

/-- HDU index table as an ordered list of rows. -/
abbrev HDUIndexTable : Type := List HDURow

/-- Source `ALL_IRFS` (`data_store.py` line 22). -/
def ALL_IRFS : List String := ["aeff", "edisp", "psf", "bkg", "rad_max"]

/-- Source `ALL_HDUS` (`data_store.py` line 23):
`["events", "gti", "pointing"] + ALL_IRFS`. -/
def ALL_HDUS : List String := ["events", "gti", "pointing"] ++ ALL_IRFS

/-- Source `REQUIRED_IRFS` (`data_store.py` lines 24-28), the named
required-IRF presets; an unknown preset name raises a `KeyError` at the
dictionary lookup. -/
def requiredIrfsPreset : String → Option (List String)
  | "full-enclosure" => some ["aeff", "edisp", "psf", "bkg"]
  | "point-like" => some ["aeff", "edisp"]
  | "all-optional" => some []
  | _ => Option.none

/-- The `required_irf` argument of `DataStore.obs`: either a preset name
string or an explicit list of HDU-type tags. -/
inductive IrfSpec where
  | preset (s : String)
  | explicitList (l : List String)
deriving DecidableEq

/-- Resolution of the `required_irf` argument performed at the top of
`DataStore.obs` (`required_irf = REQUIRED_IRFS[required_irf]` when a
string is passed). -/
def IrfSpec.resolve : IrfSpec → Option (List String)
  | .preset s => requiredIrfsPreset s
  | .explicitList l => some l

/-- Modelled from the spec: `HDUIndexTable.hdu_location` lives in
`gammapy/data/hdu_index_table.py`, which is not under `src/`.  Spec 4.4:
"looks up the unique matching row; returns a location descriptor or a
not-found sentinel".  The first row matching `(obs_id, hdu_type)` is
returned. -/
def hduLocation (t : HDUIndexTable) (oid : Int) (ht : String) : Option HDURow :=
  t.find? fun r => r.obs_id = oid ∧ r.hdu_type = ht

/-- Errors raised by `DataStore.obs` / `DataStore.get_observations`:
`ValueError`, dictionary `KeyError`, and `MissingRequiredHDU` (which
carries the batched list of missing HDU types). -/
inductive ObsError where
  | valueErr (msg : String)
  | keyErr (key : String)
  | missingHDU (missing : List String)
deriving DecidableEq

/-- The resolved observation descriptor: the `kwargs` bundle passed to the
`Observation` constructor, an `obs_id` plus an insertion-ordered mapping
from logical HDU key to located row. -/
structure ObsDescriptor where
  obs_id : Int
  hdus : List (String × HDURow)
deriving DecidableEq

/-- Python dict assignment `kw[k] = v` on an insertion-ordered
association list: replace in place when the key exists, append otherwise. -/
def dictSet (kw : List (String × HDURow)) (k : String) (v : HDURow) :
    List (String × HDURow) :=
  if kw.any (fun e => e.1 = k) then
    kw.map (fun e => if e.1 = k then (k, v) else e)
  else kw ++ [(k, v)]

/-- The effective required HDU set of `DataStore.obs`:
`{"events", "gti"} ∪ required_irf` when `require_events`, else
`required_irf` alone. -/
def effectiveRequired (irfs : List String) (require_events : Bool) : List String :=
  if require_events then "events" :: "gti" :: irfs else irfs

/-- The `kwargs` HDU entries collected by the lookup loop of
`DataStore.obs`: for every HDU type of `ALL_HDUS`, in order, the located
row keyed by its type. -/
def obsKwargs (t : HDUIndexTable) (oid : Int) : List (String × HDURow) :=
  ALL_HDUS.filterMap fun h => (hduLocation t oid h).map fun r => (h, r)

/-- The `missing_hdus` list collected by the lookup loop of
`DataStore.obs`: the HDU types of `ALL_HDUS`, in order, that are both
unlocated and required. -/
def obsMissing (t : HDUIndexTable) (oid : Int) (required : List String) : List String :=
  ALL_HDUS.filter fun h => (hduLocation t oid h).isNone ∧ h ∈ required

/-- Source `DataStore.obs` (`data_store.py` lines 266-347).  Checks the
observation id is present in the HDU index table, resolves the
`required_irf` shortcut, validates it against `ALL_IRFS`, adds
`{events, gti}` when `require_events`, looks up every HDU type of
`ALL_HDUS` collecting the located ones into `kwargs` and the
required-but-missing ones into `missing_hdus`, raises
`MissingRequiredHDU` listing all of them when non-empty, and otherwise —
when an events HDU was located — always sets `kwargs["pointing"]` and
`kwargs["meta"]` to copies of the events location retagged with
`hdu_class` `"pointing"` / `"observation_metadata"` (overwriting a
located pointing row if there was one). -/
def DataStore.obs (t : HDUIndexTable) (oid : Int) (required_irf : IrfSpec)
    (require_events : Bool) : Except ObsError ObsDescriptor :=
  if oid ∉ t.map (fun r => r.obs_id) then
    .error (.valueErr "OBS_ID not in HDU index table.")
  else
    match required_irf.resolve with
    | Option.none =>
        .error (.keyErr (match required_irf with | .preset s => s | .explicitList _ => ""))
    | some irfs =>
        if ¬ irfs.all (fun h => h ∈ ALL_IRFS) then
          .error (.valueErr "not a valid hdu key")
        else
          let required_hdus := effectiveRequired irfs require_events
          let kwargs := obsKwargs t oid
          let missing_hdus := obsMissing t oid required_hdus
          if missing_hdus ≠ [] then .error (.missingHDU missing_hdus)
          else
            match hduLocation t oid "events" with
            | some ev =>
                .ok { obs_id := oid,
                      hdus := dictSet
                        (dictSet kwargs "pointing" { ev with hdu_class := "pointing" })
                        "meta" { ev with hdu_class := "observation_metadata" } }
            | Option.none => .ok { obs_id := oid, hdus := kwargs }

/-- Source `DataStore.obs_ids`: `np.unique` of the `OBS_ID` column of the
HDU index table — the sorted deduplicated observation ids. -/
def dataStoreObsIds (t : HDUIndexTable) : List Int :=
  ((t.map fun r => r.obs_id).dedup).insertionSort (fun a b => a ≤ b)

/-- Log messages emitted by `DataStore.get_observations`, in structured
form: the "Skipping missing obs_id" warning, the duplicate-ids warning,
and the "Skipping run with missing HDUs" warning that replaces a caught
`MissingRequiredHDU`. -/
inductive LogMsg where
  | skipMissingId (oid : Int)
  | duplicateIds (oids : List Int)
  | skipRunMissingHDU (oid : Int) (missing : List String)
deriving DecidableEq

/-- The validation loop of `get_observations` over a user-given `obs_id`
list: each id absent from `obs_ids` is warned about when `skip_missing`
and raises `ValueError` (at the first offender) otherwise. -/
def checkIds (skip_missing : Bool) (known : List Int) :
    List Int → Except ObsError (List LogMsg)
  | [] => .ok []
  | i :: rest =>
      if i ∈ known then checkIds skip_missing known rest
      else if skip_missing then
        (checkIds skip_missing known rest).map (fun ws => .skipMissingId i :: ws)
      else .error (.valueErr "Missing obs_id")

/-- The duplicate-request warning of `get_observations`: one warning
listing the duplicated values when the requested list is not unique. -/
def dupWarnings (ids : List Int) : List LogMsg :=
  if ids.dedup.length ≠ ids.length then
    [.duplicateIds (ids.dedup.filter (fun i => ids.count i > 1))]
  else []

/-- The resolve loop of `get_observations`: try `DataStore.obs` for each
selected id; a `MissingRequiredHDU` is caught and turned into a skip
warning, every other error propagates. -/
def resolveLoop (t : HDUIndexTable) (required_irf : IrfSpec) (require_events : Bool) :
    List Int → Except ObsError (List ObsDescriptor × List LogMsg)
  | [] => .ok ([], [])
  | i :: rest =>
      match DataStore.obs t i required_irf require_events with
      | .ok d =>
          (resolveLoop t required_irf require_events rest).map
            (fun r => (d :: r.1, r.2))
      | .error (.missingHDU ms) =>
          (resolveLoop t required_irf require_events rest).map
            (fun r => (r.1, .skipRunMissingHDU i ms :: r.2))
      | .error e => .error e

/-- Result of `get_observations`: the resolved observation descriptors in
selection order plus the warnings logged along the way. -/
structure GetObsResult where
  observations : List ObsDescriptor
  warnings : List LogMsg
deriving DecidableEq

/-- Source `DataStore.get_observations` (`data_store.py` lines 349-440)
with the default `selection=None`: the requested ids default to all
`obs_ids`; a given list is first validated (warn-and-skip or fail fast on
unknown ids), filtered to the known ids, checked for duplicates, and then
resolved one by one with `MissingRequiredHDU` converted into a skip
warning. -/
def DataStore.get_observations (t : HDUIndexTable) (obs_id : Option (List Int))
    (skip_missing : Bool) (required_irf : IrfSpec) (require_events : Bool) :
    Except ObsError GetObsResult :=
  let known := dataStoreObsIds t
  let requested := match obs_id with | Option.none => known | some ids => ids
  match checkIds skip_missing known requested with
  | .error e => .error e
  | .ok ws1 =>
      let sel := match obs_id with
        | Option.none => known
        | some ids => ids.filter (fun i => i ∈ known)
      match resolveLoop t required_irf require_events sel with
      | .error e => .error e
      | .ok r => .ok { observations := r.1, warnings := ws1 ++ dupWarnings requested ++ r.2 }

/-- Dynamic header / info-dict value: a number, a string, or Python
`None` (stored by the time-keyword loop when a keyword is absent). -/
inductive HVal where
  | num (q : ℚ)
  | str (s : String)
  | pynone
deriving DecidableEq

/-- FITS events header, an association list of keyword to value. -/
abbrev Header : Type := List (String × HVal)

/-- Keyword lookup, `header[k]` / `header.get(k)`. -/
def Header.getVal (h : Header) (k : String) : Option HVal :=
  (h.find? fun e => e.1 = k).map fun e => e.2

/-- Python `header.get(k, d)`. -/
def Header.getD (h : Header) (k : String) (d : HVal) : HVal :=
  match h.getVal k with
  | some v => v
  | Option.none => d

/-- Errors of `DataStoreMaker.read_events_info`: a missing mandatory
keyword or dictionary entry (`KeyError`), or a value of the wrong dynamic
type where a number is needed. -/
inductive ReadError where
  | keyError (k : String)
  | typeError (k : String)
deriving DecidableEq

/-- Mandatory numeric header read, `header[k]` followed by arithmetic use. -/
def requireNum (h : Header) (k : String) : Except ReadError ℚ :=
  match h.getVal k with
  | some (.num q) => .ok q
  | some _ => .error (.typeError k)
  | Option.none => .error (.keyError k)

/-- The info dictionary built by `read_events_info`. -/
abbrev EventsInfo : Type := List (String × HVal)

/-- Dictionary access `info[k]` on the built info dictionary: raises
`KeyError` when the entry was never stored. -/
def infoNum (info : EventsInfo) (k : String) : Except ReadError ℚ :=
  match info.find? fun e => e.1 = k with
  | some (_, .num q) => .ok q
  | some _ => .error (.typeError k)
  | Option.none => .error (.keyError k)

/-- String content of an `HVal` (used for the CALDB path pieces). -/
def HVal.asStr : HVal → String
  | .str s => s
  | _ => ""

/-- Source `na_int, na_str = -1, "NOT AVAILABLE"` sentinel. -/
def naStr : String := "NOT AVAILABLE"

/-- Modelled from the spec: `gammapy.utils.time.TIME_KEYWORDS` is not
under `src/`; spec 4.4/8 names the time-reference metadata as MJDREF,
TIMEUNIT, TIMESYS, TIMEREF. -/
def TIME_KEYWORDS : List String := ["MJDREF", "TIMEUNIT", "TIMESYS", "TIMEREF"]

/-- Source `DataStoreMaker.read_events_info` (`data_store.py` lines
707-778).  External collaborators are injected: `gal` models the
`SkyCoord(...).galactic` coordinate service and `caldbFile` models the
`CalDBIRF.file_path` directory listing (both out of scope per the spec).
The function reads the mandatory keywords, branches on
`OBS_MODE == "DRIFT"` (storing ALT/AZ and the derived zenith instead of
RA/DEC), then unconditionally reads `info["RA_PNT"]`/`info["DEC_PNT"]`
to derive the galactic position, then the optional fields with their
sentinels, the IRF file location, and the time keywords. -/
def read_events_info (gal : ℚ → ℚ → ℚ × ℚ) (caldbFile : String → String → String → String)
    (events_path : String) (irf_path : Option String) (hdr : Header) :
    Except ReadError EventsInfo := do
  let obsId ← requireNum hdr "OBS_ID"
  let tstart ← requireNum hdr "TSTART"
  let tstop ← requireNum hdr "TSTOP"
  let ontime ← requireNum hdr "ONTIME"
  let livetime ← requireNum hdr "LIVETIME"
  let deadc ← requireNum hdr "DEADC"
  let telescop := hdr.getD "TELESCOP" (.str naStr)
  let info0 : EventsInfo :=
    [("OBS_ID", .num obsId), ("TSTART", .num tstart), ("TSTOP", .num tstop),
     ("ONTIME", .num ontime), ("LIVETIME", .num livetime), ("DEADC", .num deadc),
     ("TELESCOP", telescop)]
  let obs_mode := hdr.getD "OBS_MODE" (.str "POINTING")
  let info1 ←
    if obs_mode = HVal.str "DRIFT" then do
      let alt ← requireNum hdr "ALT_PNT"
      let az ← requireNum hdr "AZ_PNT"
      pure (info0 ++
        [("ALT_PNT", .num alt), ("AZ_PNT", .num az), ("ZEN_PNT", .num (90 - alt))])
    else do
      let ra ← requireNum hdr "RA_PNT"
      let dec ← requireNum hdr "DEC_PNT"
      pure (info0 ++ [("RA_PNT", .num ra), ("DEC_PNT", .num dec)])
  let ra ← infoNum info1 "RA_PNT"
  let dec ← infoNum info1 "DEC_PNT"
  let lb := gal ra dec
  let info2 := info1 ++ [("GLON_PNT", .num lb.1), ("GLAT_PNT", .num lb.2)]
  let info3 :=
    if (hdr.getVal "DATE-OBS").isSome ∧ (hdr.getVal "TIME-OBS").isSome ∧
        (hdr.getVal "DATE-END").isSome ∧ (hdr.getVal "TIME-END").isSome then
      info2 ++ [("DATE-OBS", hdr.getD "DATE-OBS" .pynone),
        ("TIME-OBS", hdr.getD "TIME-OBS" .pynone),
        ("DATE-END", hdr.getD "DATE-END" .pynone),
        ("TIME-END", hdr.getD "TIME-END" .pynone)]
    else
      info2 ++ [("DATE-OBS", hdr.getD "DATE_OBS" (.str naStr)),
        ("TIME-OBS", hdr.getD "TIME_OBS" (.str naStr)),
        ("DATE-END", hdr.getD "DATE_END" (.str naStr)),
        ("TIME-END", hdr.getD "TIME_END" (.str naStr))]
  let eventCount ← requireNum hdr "NAXIS2"
  let caldb := hdr.getD "CALDB" (.str naStr)
  let irf := hdr.getD "IRF" (.str naStr)
  let irfFilename : HVal :=
    match irf_path with
    | some ip => .str ip
    | Option.none =>
        if caldb ≠ HVal.str naStr ∧ irf ≠ HVal.str naStr then
          .str (caldbFile telescop.asStr caldb.asStr irf.asStr)
        else .str events_path
  let info4 := info3 ++
    [("N_TELS", hdr.getD "N_TELS" (.num (-1))), ("OBJECT", hdr.getD "OBJECT" (.str naStr)),
     ("EVENTS_FILENAME", .str events_path), ("EVENT_COUNT", .num eventCount),
     ("CALDB", caldb), ("IRF", irf), ("IRF_FILENAME", irfFilename)]
  let info5 := info4 ++ TIME_KEYWORDS.map fun k =>
    (k, match hdr.getVal k with | some v => v | Option.none => HVal.pynone)
  pure info5

/-- The time-reference metadata of one events file, as stored by the
time-keyword loop of `read_events_info` (`None` when a keyword is
absent). -/
structure TimeInfo where
  mjdref : Option HVal
  timeunit : Option HVal
  timesys : Option HVal
  timeref : Option HVal
deriving DecidableEq

/-- One already-read events-file info row, the unit `make_obs_table`
iterates over (file reading itself is I/O and out of scope). -/
structure EventsInfoRow where
  obs_id : Int
  time : TimeInfo
deriving DecidableEq

/-- Modelled from the spec: `gammapy.utils.time.extract_time_info` is not
under `src/`; it projects the time-reference keywords out of one info
row. -/
def extract_time_info (r : EventsInfoRow) : TimeInfo := r.time

/-- Modelled from the spec: `gammapy.utils.time.unique_time_info` is not
under `src/`; spec 4.5: the time reference must be "identical across all
input files". -/
def unique_time_info : List TimeInfo → Bool
  | [] => true
  | t :: rest => rest.all fun x => decide (x = t)

/-- The observation index table built by `make_obs_table`: its rows and
the global time-reference metadata copied into the table meta. -/
structure ObsTableModel where
  rows : List EventsInfoRow
  time_meta : TimeInfo
deriving DecidableEq

/-- Errors of `make_obs_table`: `rows[0]` on an empty input list
(`IndexError`) and the inconsistent-time-reference `RuntimeError`. -/
inductive TableError where
  | indexError
  | runtimeError
deriving DecidableEq

/-- Source `DataStoreMaker.make_obs_table` (`data_store.py` lines
780-807): one row per events file, then the time-reference consistency
check raising `RuntimeError` when `unique_time_info` fails, then the
first row's time keywords are copied into the table metadata. -/
def make_obs_table : List EventsInfoRow → Except TableError ObsTableModel
  | [] => .error .indexError
  | i0 :: rest =>
      let time_rows := (i0 :: rest).map extract_time_info
      if unique_time_info time_rows then
        .ok { rows := i0 :: rest, time_meta := extract_time_info i0 }
      else .error .runtimeError

noncomputable section

/-- Concrete parameter for the C5 counterexample and witness: explicit
bounds unset (NaN), `value = -1`, `error = 2`, default `scan_n_sigma = 2`. -/
def pConfC5 : Parameter :=
  { name := "c", value := -1, factor := -1, scale := 1, error := 2,
    min := Option.none, max := Option.none, frozen := false, scan_n_sigma := 2,
    scale_method := ScaleMethod.scale10, scale_transform := ScaleTransform.lin }

/-- Concrete parameter for the C6 counterexample and witness:
`Parameter("f", value=4, scale_method="factor1", scale_transform="sqrt")`. -/
def pFacC6 : Parameter := Parameter.make "f" 4 1 ScaleMethod.factor1 ScaleTransform.sqrt

/-- Concrete parameter for the sign part of the C6 counterexample:
`Parameter("g", value=-4, scale_method="factor1", scale_transform="lin")`. -/
def pFacNegC6 : Parameter := Parameter.make "g" (-4) 1 ScaleMethod.factor1 ScaleTransform.lin

/-- Concrete parameter for the C2 witness. -/
def pRestW : Parameter := Parameter.make "w" 5 1 ScaleMethod.none ScaleTransform.lin

/-- Concrete entry heap for the C2 witness. -/
def heapW : ParamHeap := fun _ => pRestW

/-- Concrete scope body for the C2 witness: mutates parameter 0 (value to
99, frozen to true) and then raises (the `true` flag models the error
exit). -/
def bodyW : ParamHeap → ParamHeap × Bool :=
  fun h => (Function.update h 0 { (h 0).setValue 99 with frozen := true }, true)

end

/-- Events HDU row of observation 1 in the C3 example table. -/
def evRow1 : HDURow := ⟨1, "events", "events", "d", "events.fits", "EVENTS"⟩

/-- GTI HDU row of observation 1 in the C3 example table. -/
def gtiRow1 : HDURow := ⟨1, "gti", "gti", "d", "events.fits", "GTI"⟩

/-- Dedicated pointing HDU row of observation 1 in the C3 example table,
stored in a different file than the events. -/
def ptRow1 : HDURow := ⟨1, "pointing", "pointing", "d", "pointing.fits", "POINTING"⟩

/-- C3 example table: observation 1 has events, gti and a dedicated
pointing row. -/
def tblPointing : HDUIndexTable := [evRow1, gtiRow1, ptRow1]

/-- The descriptor `DataStore.obs` actually returns on `tblPointing`
with no required IRFs: the located pointing row is replaced by the
synthetic events-derived location (`hdu_type` stays `"events"`, only
`hdu_class` is retagged). -/
def descPointing : ObsDescriptor :=
  ⟨1, [("events", evRow1), ("gti", gtiRow1),
       ("pointing", ⟨1, "events", "pointing", "d", "events.fits", "EVENTS"⟩),
       ("meta", ⟨1, "events", "observation_metadata", "d", "events.fits", "EVENTS"⟩)]⟩

/-- Full set of index rows for one observation (events, gti and the four
full-enclosure IRFs), used by the C4 scenario table. -/
def mkObsRows (oid : Int) : List HDURow :=
  [⟨oid, "events", "events", "d", "events.fits", "EVENTS"⟩,
   ⟨oid, "gti", "gti", "d", "events.fits", "GTI"⟩,
   ⟨oid, "aeff", "aeff_2d", "d", "irf.fits", "EFFECTIVE AREA"⟩,
   ⟨oid, "edisp", "edisp_2d", "d", "irf.fits", "ENERGY DISPERSION"⟩,
   ⟨oid, "psf", "psf_3gauss", "d", "irf.fits", "POINT SPREAD FUNCTION"⟩,
   ⟨oid, "bkg", "bkg_3d", "d", "irf.fits", "BACKGROUND"⟩]

/-- C4 scenario table: observations 1 and 3 are fully present,
observation 2 is absent from the index. -/
def tblScenario : HDUIndexTable := mkObsRows 1 ++ mkObsRows 3

/-- Time-reference metadata of the first C8 example file. -/
def tiA : TimeInfo :=
  ⟨some (.num 51910), some (.str "s"), some (.str "TT"), some (.str "LOCAL")⟩

/-- Time-reference metadata of the second C8 example file, differing in
MJDREF. -/
def tiB : TimeInfo :=
  ⟨some (.num 55000), some (.str "s"), some (.str "TT"), some (.str "LOCAL")⟩

/-- First C8 example info row. -/
def rowT1 : EventsInfoRow := ⟨1, tiA⟩

/-- Second C8 example info row (inconsistent time reference). -/
def rowT2 : EventsInfoRow := ⟨2, tiB⟩

/-- C9 failing input: a DRIFT-mode events header that provides `ALT_PNT`
and `AZ_PNT` (plus every mandatory keyword) but no `RA_PNT`/`DEC_PNT`. -/
def driftHeader : Header :=
  [("OBS_ID", .num 42), ("TSTART", .num 0), ("TSTOP", .num 100),
   ("ONTIME", .num 100), ("LIVETIME", .num 95), ("DEADC", .num 1),
   ("OBS_MODE", .str "DRIFT"), ("ALT_PNT", .num 60), ("AZ_PNT", .num 100),
   ("NAXIS2", .num 10)]

/-- The inverse transform undoes the forward transform on its domain. -/
theorem interpScaleInv_interpScale (t : ScaleTransform) (v : ℝ) (h : TransformDom t v) :
    interpScaleInv t (interpScale t v) = v := by
  cases t with
  | lin => rfl
  | log => exact Real.exp_log h
  | sqrt =>
      by_cases hv : v < 0
      · have hvpos : (0 : ℝ) < -v := by linarith
        have hs : 0 < Real.sqrt (-v) := Real.sqrt_pos.mpr hvpos
        simp only [interpScale, interpScaleInv, if_pos hv]
        rw [if_pos (by linarith : -Real.sqrt (-v) < 0), neg_mul_neg,
          Real.mul_self_sqrt (le_of_lt hvpos)]
        ring
      · push_neg at hv
        simp only [interpScale, interpScaleInv, if_neg (not_lt.mpr hv)]
        rw [if_neg (not_lt.mpr (Real.sqrt_nonneg v))]
        exact Real.mul_self_sqrt hv

/-- The forward transform undoes the inverse transform everywhere. -/
theorem interpScale_interpScaleInv (t : ScaleTransform) (x : ℝ) :
    interpScale t (interpScaleInv t x) = x := by
  cases t with
  | lin => rfl
  | log => exact Real.log_exp x
  | sqrt =>
      by_cases hx : x < 0
      · have h1 : -(x * x) < 0 := by nlinarith
        simp only [interpScaleInv, interpScale, if_pos hx, if_pos h1]
        rw [neg_neg, Real.sqrt_mul_self_eq_abs, abs_of_neg hx, neg_neg]
      · push_neg at hx
        have h1 : ¬ (x * x < 0) := by nlinarith
        simp only [interpScaleInv, interpScale, if_neg (not_lt.mpr hx), if_neg h1]
        rw [Real.sqrt_mul_self_eq_abs, abs_of_nonneg hx]

/-- The value setter establishes the round-trip invariant from any prior
state, provided the scale is nonzero and the assigned value is in the
transform's domain. -/
theorem setValue_invariant (p : Parameter) (v : ℝ) (hs : p.scale ≠ 0)
    (hd : TransformDom p.scale_transform v) : ParamInvariant (p.setValue v) := by
  constructor
  · show v = interpScaleInv p.scale_transform
      (p.scale * (interpScale p.scale_transform v / p.scale))
    rw [mul_div_cancel₀ _ hs, interpScaleInv_interpScale _ _ hd]
  · rfl

/-- The factor setter establishes the round-trip invariant from any prior
state, provided the scale is nonzero. -/
theorem setFactor_invariant (p : Parameter) (f : ℝ) (hs : p.scale ≠ 0) :
    ParamInvariant (p.setFactor f) := by
  constructor
  · rfl
  · show f = interpScale p.scale_transform
      (interpScaleInv p.scale_transform (p.scale * f)) / p.scale
    rw [interpScale_interpScaleInv, mul_div_cancel_left₀ _ hs]

/-- Both setters leave the scale and the transform tag unchanged. -/
theorem applyOp_preserves (p : Parameter) (op : AssignOp) :
    (applyOp p op).scale = p.scale ∧ (applyOp p op).scale_transform = p.scale_transform := by
  cases op <;> exact ⟨rfl, rfl⟩

/-- The invariant is preserved (in fact re-established) by any sequence
of assignments whose assigned values stay in the transform's domain. -/
theorem applyOps_invariant (ops : List AssignOp) (p : Parameter) (hs : p.scale ≠ 0)
    (hv : ∀ v, AssignOp.setV v ∈ ops → TransformDom p.scale_transform v)
    (h0 : ParamInvariant p) : ParamInvariant (applyOps p ops) := by
  induction ops generalizing p with
  | nil => exact h0
  | cons op rest ih =>
      have hpres := applyOp_preserves p op
      refine ih (applyOp p op) (hpres.1.symm ▸ hs) ?_ ?_
      · intro v hvmem
        rw [hpres.2]
        exact hv v (List.mem_cons_of_mem _ hvmem)
      · cases op with
        | setV v => exact setValue_invariant p v hs (hv v (List.mem_cons_self _ _))
        | setF f => exact setFactor_invariant p f hs

/-- C1 (amended): for every constructed `Parameter` with fixed scale and
scale_transform, after any sequence of assignments to `p.value` and
`p.factor`, the invariant `p.value == p.inverse_transform(p.factor)` and
`p.factor == p.transform(p.value)` holds — provided the scale is nonzero
and every assigned value (and the initial value) lies in the transform's
domain (everything for `lin` and `sqrt`, positive values for `log`). -/
theorem roundtrip_invariant_amended (name : String) (v0 scale : ℝ) (m : ScaleMethod)
    (t : ScaleTransform) (ops : List AssignOp) (hs : scale ≠ 0) (h0 : TransformDom t v0)
    (hops : ∀ v, AssignOp.setV v ∈ ops → TransformDom t v) :
    ParamInvariant (applyOps (Parameter.make name v0 scale m t) ops) := by
  apply applyOps_invariant ops (Parameter.make name v0 scale m t) hs hops
  exact setValue_invariant _ v0 hs h0

/-- C1 counterexample: with `scale_transform="log"`, `scale=1`, a single
assignment `p.value = -1` breaks the invariant.  In the code
`p.inverse_transform(p.factor)` is then `exp(log(-1)) = NaN ≠ -1`; in the
real-valued model the junk value of `log` at `-1` gives `1 ≠ -1` — the
invariant fails either way. -/
theorem roundtrip_invariant_counterexample :
    ¬ ParamInvariant
      (applyOps (Parameter.make "x" 1 1 ScaleMethod.none ScaleTransform.log)
        [AssignOp.setV (-1)]) := by
  intro h
  have h1 : (-1 : ℝ) = Real.exp (1 * (Real.log (-1) / 1)) := h.1
  have hlog : Real.log (-1) = 0 := by
    rw [show ((-1 : ℝ)) = -(1 : ℝ) by norm_num, Real.log_neg_eq_log, Real.log_one]
  rw [hlog] at h1
  norm_num [Real.exp_zero] at h1

/-- C1 witness: the amended invariant at a concrete linear parameter and
a concrete assignment sequence. -/
theorem roundtrip_invariant_amended_witness :
    (1 : ℝ) ≠ 0 ∧
    ParamInvariant (applyOps (Parameter.make "x" 1 1 ScaleMethod.none ScaleTransform.lin)
      [AssignOp.setV 3, AssignOp.setF 5]) :=
  ⟨one_ne_zero,
    roundtrip_invariant_amended "x" 1 1 ScaleMethod.none ScaleTransform.lin
      [AssignOp.setV 3, AssignOp.setF 5] one_ne_zero trivial (fun _ _ => trivial)⟩

/-- The scale update leaves the transform tag and the value field
unchanged (it only rewrites the scale). -/
theorem update_scale_preserves (p : Parameter) (v : ℝ) :
    (p.update_scale v).scale_transform = p.scale_transform ∧
    (p.update_scale v).value = p.value := by
  cases hp : p.scale_method with
  | scale10 =>
      simp only [Parameter.update_scale, hp]
      split <;> exact ⟨rfl, rfl⟩
  | factor1 =>
      simp only [Parameter.update_scale, hp]
      exact ⟨trivial, trivial⟩
  | none =>
      simp only [Parameter.update_scale, hp]
      exact ⟨trivial, trivial⟩

/-- C7 (amended): `autoscale()` assigns the result of
`transform(value, update_scale=True)` to `factor` through the factor
property setter, which re-derives the value field; the re-derived value
equals the old one — so the physical value is unchanged — exactly when
the transform round-trips at the current value and the updated scale is
nonzero. -/
theorem autoscale_value_amended (p : Parameter)
    (hd : TransformDom p.scale_transform p.value)
    (hs : (p.transformUpdateScale p.value).1.scale ≠ 0) :
    (p.autoscale).value = p.value ∧
    (p.autoscale).factor = (p.transformUpdateScale p.value).2 := by
  have hz : (p.update_scale (interpScale p.scale_transform p.value)).scale ≠ 0 := hs
  have hpres := update_scale_preserves p (interpScale p.scale_transform p.value)
  constructor
  · show interpScaleInv
      (p.update_scale (interpScale p.scale_transform p.value)).scale_transform
      ((p.update_scale (interpScale p.scale_transform p.value)).scale *
        (interpScale p.scale_transform p.value /
          (p.update_scale (interpScale p.scale_transform p.value)).scale)) = p.value
    rw [hpres.1, mul_div_cancel₀ _ hz, interpScaleInv_interpScale _ _ hd]
  · rfl

/-- C7 counterexample: for `Parameter("x", value=-1, scale_transform="log")`
with `scale_method=None`, `autoscale()` changes the value field — the
assignment `self.factor = ...` runs the factor setter, which re-derives
`_value = inverse_transform(factor)`.  In the code the value becomes
`exp(log(-1)) = NaN ≠ -1`; in the real-valued model it becomes `1 ≠ -1` —
it differs from `-1` either way. -/
theorem autoscale_value_counterexample :
    ((Parameter.make "x" (-1) 1 ScaleMethod.none ScaleTransform.log).autoscale).value ≠
    (Parameter.make "x" (-1) 1 ScaleMethod.none ScaleTransform.log).value := by
  intro h
  have h1 : Real.exp (1 * (Real.log (-1) / 1)) = -1 := h
  have hlog : Real.log (-1) = 0 := by
    rw [show ((-1 : ℝ)) = -(1 : ℝ) by norm_num, Real.log_neg_eq_log, Real.log_one]
  rw [hlog] at h1
  norm_num [Real.exp_zero] at h1

/-- C7 witness: the amended statement at a concrete linear parameter. -/
theorem autoscale_value_amended_witness :
    TransformDom
      (Parameter.make "x" 2 1 ScaleMethod.none ScaleTransform.lin).scale_transform
      (Parameter.make "x" 2 1 ScaleMethod.none ScaleTransform.lin).value ∧
    ((Parameter.make "x" 2 1 ScaleMethod.none ScaleTransform.lin).autoscale).value =
      (Parameter.make "x" 2 1 ScaleMethod.none ScaleTransform.lin).value :=
  ⟨trivial,
    (autoscale_value_amended (Parameter.make "x" 2 1 ScaleMethod.none ScaleTransform.lin)
      trivial (by show (1 : ℝ) ≠ 0; norm_num)).1⟩

/-- C6 (amended): under `scale_method="factor1"`, `autoscale()` sets the
scale to the transformed value `interp_scale(value)` (equal to the raw
value only for the `lin` transform), and the factor becomes `1` whenever
the transformed value is nonzero — the sign of the value is carried by
the scale, not by the factor, so the scale is negative for negative
(transformed) values. -/
theorem factor1_autoscale_amended (p : Parameter)
    (hm : p.scale_method = ScaleMethod.factor1)
    (ht : interpScale p.scale_transform p.value ≠ 0) :
    (p.autoscale).scale = interpScale p.scale_transform p.value ∧
    (p.autoscale).factor = 1 := by
  have h1 : p.update_scale (interpScale p.scale_transform p.value) =
      { p with scale := interpScale p.scale_transform p.value } := by
    simp only [Parameter.update_scale, hm]
  constructor
  · show ((p.update_scale (interpScale p.scale_transform p.value)).setFactor
      (interpScale p.scale_transform p.value /
        (p.update_scale (interpScale p.scale_transform p.value)).scale)).scale =
      interpScale p.scale_transform p.value
    rw [h1]
    rfl
  · show interpScale p.scale_transform p.value /
      (p.update_scale (interpScale p.scale_transform p.value)).scale = 1
    rw [h1]
    exact div_self ht

/-- C6 counterexample: for `Parameter("f", value=4, scale_method="factor1",
scale_transform="sqrt")`, `autoscale()` sets `scale = sqrt(4) = 2`, not
the raw value `4`; and for `Parameter("g", value=-4, scale_method="factor1",
scale_transform="lin")` the scale becomes `-4 < 0` while the factor is
`1` — the sign is not carried by the factor and the scale does not stay
positive. -/
theorem factor1_scale_counterexample :
    (pFacC6.autoscale).scale ≠ pFacC6.value ∧
    (pFacNegC6.autoscale).scale < 0 ∧
    (pFacNegC6.autoscale).factor = 1 := by
  have hsqrt : Real.sqrt 4 = 2 := by
    rw [show (4 : ℝ) = 2 ^ 2 by norm_num]
    exact Real.sqrt_sq (by norm_num)
  refine ⟨?_, ?_, ?_⟩
  · have h1 : (pFacC6.autoscale).scale = interpScale ScaleTransform.sqrt 4 := rfl
    have h2 : interpScale ScaleTransform.sqrt 4 = Real.sqrt 4 := by
      simp only [interpScale]
      rw [if_neg (by norm_num : ¬ ((4 : ℝ) < 0))]
    have hv : pFacC6.value = 4 := rfl
    rw [h1, h2, hsqrt, hv]
    norm_num
  · have h1 : (pFacNegC6.autoscale).scale = (-4 : ℝ) := rfl
    rw [h1]
    norm_num
  · have h1 : (pFacNegC6.autoscale).factor = (-4 : ℝ) / (-4 : ℝ) := rfl
    rw [h1]
    norm_num

/-- C6 witness: the amended statement at the concrete sqrt parameter. -/
theorem factor1_autoscale_amended_witness :
    pFacC6.scale_method = ScaleMethod.factor1 ∧ (pFacC6.autoscale).factor = 1 :=
  ⟨rfl,
    (factor1_autoscale_amended pFacC6 rfl (by
      have h2 : interpScale ScaleTransform.sqrt (4 : ℝ) = Real.sqrt 4 := by
        simp only [interpScale]
        rw [if_neg (by norm_num : ¬ ((4 : ℝ) < 0))]
      show interpScale ScaleTransform.sqrt 4 ≠ 0
      rw [h2]
      exact ne_of_gt (Real.sqrt_pos.mpr (by norm_num)))).2⟩

/-- C5 (amended): when the explicit bound is unset (NaN), `conf_min` /
`conf_max` are derived as `value ∓ step·scan_n_sigma` with
`step = error if error > 0 else |value|`, additionally clamped so the
derived bound is at least `large_step·1e5` away from ZERO in the
appropriate direction (`conf_min ≤ -large_step·1e5`,
`conf_max ≥ large_step·1e5`), where `large_step = max(step, |value|)` —
not necessarily that far away from the value; a set explicit bound is
returned unchanged. -/
theorem conf_bounds_amended (p : Parameter) :
    (p.min = Option.none →
      p.conf_min = Min.min (p.value - p.step * (p.scan_n_sigma : ℝ))
          (-(Max.max p.step |p.value| * 100000)) ∧
      p.conf_min ≤ -(Max.max p.step |p.value| * 100000) ∧
      p.conf_min ≤ p.value - p.step * (p.scan_n_sigma : ℝ)) ∧
    (∀ m, p.min = some m → p.conf_min = m) ∧
    (p.max = Option.none →
      p.conf_max = Max.max (p.value + p.step * (p.scan_n_sigma : ℝ))
          (Max.max p.step |p.value| * 100000) ∧
      Max.max p.step |p.value| * 100000 ≤ p.conf_max ∧
      p.value + p.step * (p.scan_n_sigma : ℝ) ≤ p.conf_max) ∧
    (∀ m, p.max = some m → p.conf_max = m) := by
  refine ⟨?_, ?_, ?_, ?_⟩
  · intro h
    have he : p.conf_min = Min.min (p.value - p.step * (p.scan_n_sigma : ℝ))
        (-(Max.max p.step |p.value| * 100000)) := by
      simp only [Parameter.conf_min, h]
    exact ⟨he, he ▸ min_le_right _ _, he ▸ min_le_left _ _⟩
  · intro m h
    simp only [Parameter.conf_min, h]
  · intro h
    have he : p.conf_max = Max.max (p.value + p.step * (p.scan_n_sigma : ℝ))
        (Max.max p.step |p.value| * 100000) := by
      simp only [Parameter.conf_max, h]
    exact ⟨he, he ▸ le_max_right _ _, he ▸ le_max_left _ _⟩
  · intro m h
    simp only [Parameter.conf_max, h]

/-- C5 counterexample: for an unbounded parameter with `value = -1`,
`error = 2`, `scan_n_sigma = 2`, the code computes
`conf_min = min(-5, -200000) = -200000`, and
`value - conf_min = 199999 < 200000 = large_step·1e5` — the derived bound
is NOT at least `large_step·1e5` away from the value. -/
theorem conf_bound_counterexample :
    pConfC5.min = Option.none ∧
    ¬ (pConfC5.value - pConfC5.conf_min ≥ Max.max pConfC5.step |pConfC5.value| * 100000) := by
  have hv : pConfC5.value = -1 := rfl
  have he : pConfC5.error = 2 := rfl
  have hsig : pConfC5.scan_n_sigma = 2 := rfl
  have hstep : pConfC5.step = 2 := by
    unfold Parameter.step
    rw [he, if_pos (by norm_num : (2 : ℝ) > 0)]
  have habs : |pConfC5.value| = 1 := by rw [hv]; norm_num
  have hmax : Max.max pConfC5.step |pConfC5.value| = 2 := by
    rw [hstep, habs]
    exact max_eq_left (by norm_num)
  have hcm0 : pConfC5.conf_min = Min.min (pConfC5.value - pConfC5.step * (pConfC5.scan_n_sigma : ℝ))
      (-(Max.max pConfC5.step |pConfC5.value| * 100000)) := rfl
  have hcm : pConfC5.conf_min = -200000 := by
    rw [hcm0, hmax, hv, hstep, hsig]
    rw [min_eq_right (by push_cast; norm_num)]
    norm_num
  refine ⟨rfl, ?_⟩
  rw [hmax, hcm, hv]
  norm_num

/-- C5 witness: the amended clamp direction at the concrete parameter. -/
theorem conf_bounds_amended_witness :
    pConfC5.min = Option.none ∧
    pConfC5.conf_min ≤ -(Max.max pConfC5.step |pConfC5.value| * 100000) :=
  ⟨rfl, ((conf_bounds_amended pConfC5).1 rfl).2.1⟩

/-- Heap positions not named by the snapshot are untouched by the
`__exit__` restoration loop. -/
theorem exitRestore_untouched (rv : Bool) (l : List (Nat × ℝ × Bool)) (h : ParamHeap)
    (r : Nat) (hr : r ∉ l.map fun e => e.1) : exitRestore rv l h r = h r := by
  induction l generalizing h with
  | nil => rfl
  | cons e rest ih =>
      obtain ⟨r0, v0, f0⟩ := e
      simp only [List.map_cons, List.mem_cons] at hr
      push_neg at hr
      rw [exitRestore, ih _ hr.2, Function.update_noteq hr.1]

/-- Running the `__exit__` loop on the entry snapshot restores, at every
referenced position, the frozen flag (always) and the value (when
`restore_values`), whatever heap the scope body produced. -/
theorem exitRestore_entry (rv : Bool) (refs : List Nat) (h0 : ParamHeap) (h1 : ParamHeap)
    (r : Nat) (hr : r ∈ refs) :
    (exitRestore rv (entrySnapshot refs h0) h1 r).frozen = (h0 r).frozen ∧
    (rv = true → (exitRestore rv (entrySnapshot refs h0) h1 r).value = (h0 r).value) := by
  induction refs generalizing h1 with
  | nil => cases hr
  | cons r0 rest ih =>
      simp only [entrySnapshot, List.map_cons] at *
      rw [exitRestore]
      by_cases hmem : r ∈ rest
      · exact ih _ hmem
      · have hrr : r = r0 := by
          rcases List.mem_cons.mp hr with h | h
          · exact h
          · exact absurd h hmem
        subst hrr
        have huntouched : r ∉ (List.map (fun x => (x, (h0 x).value, (h0 x).frozen)) rest).map
            fun e => e.1 := by
          simpa using hmem
        rw [exitRestore_untouched rv _ _ r huntouched, Function.update_same]
        constructor
        · rfl
        · intro hrv
          subst hrv
          rfl

/-- C2: `restore_status(restore_values)` snapshots `(value, frozen)` of
every parameter at entry, and on scope exit — normal or error exit alike,
since the body's outcome flag is ignored by the unconditional `__exit__` —
every referenced parameter's frozen flag is restored exactly to the entry
snapshot, and so is its value when `restore_values=True`. -/
theorem restore_status_restores (rv : Bool) (refs : List Nat) (h0 : ParamHeap)
    (body : ParamHeap → ParamHeap × Bool) (r : Nat) (hr : r ∈ refs) :
    ((restoreStatusRun rv refs h0 body).1 r).frozen = (h0 r).frozen ∧
    (rv = true → ((restoreStatusRun rv refs h0 body).1 r).value = (h0 r).value) :=
  exitRestore_entry rv refs h0 (body h0).1 r hr

/-- C2 witness: a concrete single-parameter container whose body mutates
value and frozen flag and then raises; both are restored. -/
theorem restore_status_restores_witness :
    (0 ∈ [0]) ∧
    (((restoreStatusRun true [0] heapW bodyW).1 0).frozen = (heapW 0).frozen ∧
      (true = true → ((restoreStatusRun true [0] heapW bodyW).1 0).value = (heapW 0).value)) :=
  ⟨by decide, restore_status_restores true [0] heapW bodyW 0 (by decide)⟩

/-- Entries with a different key survive a dict assignment unchanged. -/
theorem mem_dictSet_of_ne (kw : List (String × HDURow)) (k : String) (v : HDURow)
    (h : String) (r : HDURow) (hne : h ≠ k) (hmem : (h, r) ∈ kw) :
    (h, r) ∈ dictSet kw k v := by
  unfold dictSet
  split
  · exact List.mem_map.mpr ⟨(h, r), hmem, by simp [hne]⟩
  · exact List.mem_append_left _ hmem

/-- A dict assignment makes its own key-value pair a member. -/
theorem mem_dictSet_self (kw : List (String × HDURow)) (k : String) (v : HDURow) :
    (k, v) ∈ dictSet kw k v := by
  unfold dictSet
  split
  · next hany =>
      obtain ⟨e, he, hek⟩ := List.any_eq_true.mp hany
      have hek' : e.1 = k := by simpa using hek
      exact List.mem_map.mpr ⟨e, he, by simp [hek']⟩
  · exact List.mem_append_right _ (by simp)

/-- Membership in the collected `kwargs` entries: exactly the located
rows, keyed by their HDU type. -/
theorem mem_obsKwargs (t : HDUIndexTable) (oid : Int) (h : String) (r : HDURow) :
    (h, r) ∈ obsKwargs t oid ↔ h ∈ ALL_HDUS ∧ hduLocation t oid h = some r := by
  unfold obsKwargs
  rw [List.mem_filterMap]
  constructor
  · rintro ⟨a, ha, hfa⟩
    rw [Option.map_eq_some'] at hfa
    obtain ⟨row, hrow, heq⟩ := hfa
    have h1 : a = h := congrArg Prod.fst heq
    have h2 : row = r := congrArg Prod.snd heq
    subst h1
    subst h2
    exact ⟨ha, hrow⟩
  · rintro ⟨hmem, hloc⟩
    exact ⟨h, hmem, by rw [hloc]; rfl⟩

/-- Membership in the collected `missing_hdus` list: exactly the unlocated
required HDU types. -/
theorem mem_obsMissing (t : HDUIndexTable) (oid : Int) (required : List String) (h : String) :
    h ∈ obsMissing t oid required ↔
      h ∈ ALL_HDUS ∧ hduLocation t oid h = Option.none ∧ h ∈ required := by
  unfold obsMissing
  rw [List.mem_filter]
  simp only [decide_eq_true_eq, Option.isNone_iff_eq_none, Bool.and_eq_true,
    decide_eq_true_eq]

/-- The `missing_hdus` list is non-empty exactly when some required HDU
type is unlocated (given that every required type is a known HDU type). -/
theorem obsMissing_ne_nil_iff (t : HDUIndexTable) (oid : Int) (required : List String)
    (hsub : ∀ h ∈ required, h ∈ ALL_HDUS) :
    obsMissing t oid required ≠ [] ↔
      ∃ h ∈ required, hduLocation t oid h = Option.none := by
  constructor
  · intro hne
    obtain ⟨h, hh⟩ := List.exists_mem_of_ne_nil _ hne
    rw [mem_obsMissing] at hh
    exact ⟨h, hh.2.2, hh.2.1⟩
  · rintro ⟨h, hreq, hloc⟩ hnil
    have hmem : h ∈ obsMissing t oid required :=
      (mem_obsMissing t oid required h).mpr ⟨hsub h hreq, hloc, hreq⟩
    rw [hnil] at hmem
    simp at hmem

/-- Every effectively-required HDU type is a known HDU type, given a
valid `required_irf` list. -/
theorem effectiveRequired_subset (irfs : List String) (rev : Bool)
    (hvalid : ∀ h ∈ irfs, h ∈ ALL_IRFS) :
    ∀ h ∈ effectiveRequired irfs rev, h ∈ ALL_HDUS := by
  intro h hmem
  have hirf : ∀ x ∈ ALL_IRFS, x ∈ ALL_HDUS := by decide
  cases rev with
  | false =>
      simp only [effectiveRequired, Bool.false_eq_true, if_false] at hmem
      exact hirf h (hvalid h hmem)
  | true =>
      simp only [effectiveRequired, if_true, List.mem_cons] at hmem
      rcases hmem with rfl | rfl | h1
      · decide
      · decide
      · exact hirf h (hvalid h h1)


/-- With a present id, a valid required-IRF list and a non-empty missing
list, `DataStore.obs` raises `MissingRequiredHDU` carrying the whole
missing list. -/
theorem obs_eq_error (t : HDUIndexTable) (oid : Int) (spec : IrfSpec)
    (irfs : List String) (rev : Bool) (hres : IrfSpec.resolve spec = some irfs)
    (hpres : oid ∈ t.map fun r => r.obs_id) (hvalid : ∀ h ∈ irfs, h ∈ ALL_IRFS)
    (hne : obsMissing t oid (effectiveRequired irfs rev) ≠ []) :
    DataStore.obs t oid spec rev =
      Except.error (ObsError.missingHDU (obsMissing t oid (effectiveRequired irfs rev))) := by
  have hall : irfs.all (fun h => h ∈ ALL_IRFS) = true := by
    rw [List.all_eq_true]
    intro x hx
    exact decide_eq_true (hvalid x hx)
  simp only [DataStore.obs, hres]
  rw [if_neg (not_not_intro hpres), if_neg (not_not_intro hall), if_pos hne]

/-- With nothing missing and an events HDU located, `DataStore.obs`
returns the kwargs bundle with the pointing entry overwritten by, and a
meta entry added as, retagged copies of the events location. -/
theorem obs_eq_ok_events (t : HDUIndexTable) (oid : Int) (spec : IrfSpec)
    (irfs : List String) (rev : Bool) (hres : IrfSpec.resolve spec = some irfs)
    (hpres : oid ∈ t.map fun r => r.obs_id) (hvalid : ∀ h ∈ irfs, h ∈ ALL_IRFS)
    (hnil : obsMissing t oid (effectiveRequired irfs rev) = [])
    (ev : HDURow) (hev : hduLocation t oid "events" = some ev) :
    DataStore.obs t oid spec rev =
      Except.ok ⟨oid, dictSet
        (dictSet (obsKwargs t oid) "pointing" { ev with hdu_class := "pointing" })
        "meta" { ev with hdu_class := "observation_metadata" }⟩ := by
  have hall : irfs.all (fun h => h ∈ ALL_IRFS) = true := by
    rw [List.all_eq_true]
    intro x hx
    exact decide_eq_true (hvalid x hx)
  simp only [DataStore.obs, hres]
  rw [if_neg (not_not_intro hpres), if_neg (not_not_intro hall),
    if_neg (not_not_intro hnil), hev]

/-- With nothing missing and no events HDU, `DataStore.obs` returns the
kwargs bundle as collected. -/
theorem obs_eq_ok_noevents (t : HDUIndexTable) (oid : Int) (spec : IrfSpec)
    (irfs : List String) (rev : Bool) (hres : IrfSpec.resolve spec = some irfs)
    (hpres : oid ∈ t.map fun r => r.obs_id) (hvalid : ∀ h ∈ irfs, h ∈ ALL_IRFS)
    (hnil : obsMissing t oid (effectiveRequired irfs rev) = [])
    (hev : hduLocation t oid "events" = Option.none) :
    DataStore.obs t oid spec rev = Except.ok ⟨oid, obsKwargs t oid⟩ := by
  have hall : irfs.all (fun h => h ∈ ALL_IRFS) = true := by
    rw [List.all_eq_true]
    intro x hx
    exact decide_eq_true (hvalid x hx)
  simp only [DataStore.obs, hres]
  rw [if_neg (not_not_intro hpres), if_neg (not_not_intro hall),
    if_neg (not_not_intro hnil), hev]

/-- C3 (amended): for every obs_id present in the HDU index table and a
valid required-IRF specification, `DataStore.obs` fails with a
`MissingRequiredHDU` error listing ALL missing required HDU types
(batched) if and only if the effective required set (`required_irf`
unioned with `{events, gti}` when `require_events`) minus the present
HDU types is non-empty; otherwise it returns a descriptor bundling every
located HDU EXCEPT that, whenever an events HDU is present, the pointing
entry is always the synthetic events-derived location (overriding a
located pointing row), plus the synthetic observation-metadata location —
both copies of the events location retagged to different logical HDU
classes.  A located pointing row is bundled as such only when no events
HDU is present. -/
theorem obs_resolution_amended (t : HDUIndexTable) (oid : Int) (spec : IrfSpec)
    (irfs : List String) (rev : Bool) (hres : IrfSpec.resolve spec = some irfs)
    (hpres : oid ∈ t.map fun r => r.obs_id) (hvalid : ∀ h ∈ irfs, h ∈ ALL_IRFS) :
    ((∃ ms, DataStore.obs t oid spec rev = Except.error (ObsError.missingHDU ms)) ↔
      ∃ h ∈ effectiveRequired irfs rev, hduLocation t oid h = Option.none) ∧
    (∀ ms, DataStore.obs t oid spec rev = Except.error (ObsError.missingHDU ms) →
      ∀ h, h ∈ ms ↔ h ∈ ALL_HDUS ∧ hduLocation t oid h = Option.none ∧
        h ∈ effectiveRequired irfs rev) ∧
    (∀ d, DataStore.obs t oid spec rev = Except.ok d →
      d.obs_id = oid ∧
      (∀ h r, h ∈ ALL_HDUS → h ≠ "pointing" → hduLocation t oid h = some r →
        (h, r) ∈ d.hdus) ∧
      (∀ ev, hduLocation t oid "events" = some ev →
        ("pointing", { ev with hdu_class := "pointing" }) ∈ d.hdus ∧
        ("meta", { ev with hdu_class := "observation_metadata" }) ∈ d.hdus) ∧
      (hduLocation t oid "events" = Option.none →
        ∀ r, hduLocation t oid "pointing" = some r → ("pointing", r) ∈ d.hdus)) := by
  have hsub := effectiveRequired_subset irfs rev hvalid
  by_cases hmiss : obsMissing t oid (effectiveRequired irfs rev) = []
  · have hnomiss : ¬ ∃ h ∈ effectiveRequired irfs rev, hduLocation t oid h = Option.none := by
      intro hex
      exact (obsMissing_ne_nil_iff t oid _ hsub).mpr hex hmiss
    refine ⟨?_, ?_, ?_⟩
    · constructor
      · rintro ⟨ms, hms⟩
        exfalso
        cases hev : hduLocation t oid "events" with
        | some ev =>
            rw [obs_eq_ok_events t oid spec irfs rev hres hpres hvalid hmiss ev hev] at hms
            simp at hms
        | none =>
            rw [obs_eq_ok_noevents t oid spec irfs rev hres hpres hvalid hmiss hev] at hms
            simp at hms
      · intro hex
        exact absurd hex hnomiss
    · intro ms hms
      exfalso
      cases hev : hduLocation t oid "events" with
      | some ev =>
          rw [obs_eq_ok_events t oid spec irfs rev hres hpres hvalid hmiss ev hev] at hms
          simp at hms
      | none =>
          rw [obs_eq_ok_noevents t oid spec irfs rev hres hpres hvalid hmiss hev] at hms
          simp at hms
    · intro d hd
      cases hev : hduLocation t oid "events" with
      | some ev =>
          rw [obs_eq_ok_events t oid spec irfs rev hres hpres hvalid hmiss ev hev] at hd
          have hdeq : d = ⟨oid, dictSet
              (dictSet (obsKwargs t oid) "pointing" { ev with hdu_class := "pointing" })
              "meta" { ev with hdu_class := "observation_metadata" }⟩ := by
            injection hd with h'
            exact h'.symm
          subst hdeq
          refine ⟨rfl, ?_, ?_, ?_⟩
          · intro h r hall hnp hloc
            have h1 : (h, r) ∈ obsKwargs t oid := (mem_obsKwargs t oid h r).mpr ⟨hall, hloc⟩
            have hnm : h ≠ "meta" := by
              intro hh
              subst hh
              exact absurd hall (by decide)
            exact mem_dictSet_of_ne _ _ _ _ _ hnm (mem_dictSet_of_ne _ _ _ _ _ hnp h1)
          · intro ev2 hev2
            injection hev2 with hev2e
            subst hev2e
            constructor
            · exact mem_dictSet_of_ne _ _ _ _ _ (by decide) (mem_dictSet_self _ _ _)
            · exact mem_dictSet_self _ _ _
          · intro hnone
            simp at hnone
      | none =>
          rw [obs_eq_ok_noevents t oid spec irfs rev hres hpres hvalid hmiss hev] at hd
          have hdeq : d = ⟨oid, obsKwargs t oid⟩ := by
            injection hd with h'
            exact h'.symm
          subst hdeq
          refine ⟨rfl, ?_, ?_, ?_⟩
          · intro h r hall _ hloc
            exact (mem_obsKwargs t oid h r).mpr ⟨hall, hloc⟩
          · intro ev2 hev2
            simp at hev2
          · intro _ r hlocp
            exact (mem_obsKwargs t oid "pointing" r).mpr ⟨by decide, hlocp⟩
  · have hobs := obs_eq_error t oid spec irfs rev hres hpres hvalid hmiss
    refine ⟨?_, ?_, ?_⟩
    · constructor
      · intro _
        exact (obsMissing_ne_nil_iff t oid _ hsub).mp hmiss
      · intro _
        exact ⟨obsMissing t oid (effectiveRequired irfs rev), hobs⟩
    · intro ms hms
      rw [hobs] at hms
      have h1 : ObsError.missingHDU (obsMissing t oid (effectiveRequired irfs rev)) =
          ObsError.missingHDU ms := by
        injection hms
      have hmseq : ms = obsMissing t oid (effectiveRequired irfs rev) := by
        injection h1 with h2
        exact h2.symm
      subst hmseq
      intro h
      rw [mem_obsMissing]
    · intro d hd
      rw [hobs] at hd
      simp at hd

/-- C3 counterexample: on a table where observation 1 has events, gti and
a dedicated pointing row, `DataStore.obs` succeeds but its descriptor
does NOT bundle the located pointing HDU — the pointing entry is the
retagged copy of the events location instead. -/
theorem obs_bundles_counterexample :
    hduLocation tblPointing 1 "pointing" = some ptRow1 ∧
    DataStore.obs tblPointing 1 (IrfSpec.explicitList []) true = Except.ok descPointing ∧
    ("pointing", ptRow1) ∉ descPointing.hdus := by
  refine ⟨by decide, rfl, by decide⟩

/-- C3 witness: the amended failure characterization at a concrete table
missing the aeff IRF. -/
theorem obs_resolution_amended_witness :
    ((1 : Int) ∈ tblPointing.map fun r => r.obs_id) ∧
    ((∃ ms, DataStore.obs tblPointing 1 (IrfSpec.explicitList ["aeff"]) true =
        Except.error (ObsError.missingHDU ms)) ↔
      ∃ h ∈ effectiveRequired ["aeff"] true, hduLocation tblPointing 1 h = Option.none) :=
  ⟨by decide,
    (obs_resolution_amended tblPointing 1 (IrfSpec.explicitList ["aeff"]) ["aeff"] true
      rfl (by decide) (by decide)).1⟩

/-- Membership in `obs_ids` is membership in the OBS_ID column. -/
theorem mem_dataStoreObsIds (t : HDUIndexTable) (i : Int) :
    i ∈ dataStoreObsIds t ↔ i ∈ t.map fun r => r.obs_id := by
  unfold dataStoreObsIds
  rw [(List.perm_insertionSort _ _).mem_iff, List.mem_dedup]

/-- With `skip_missing=True` the id validation loop never raises. -/
theorem checkIds_true_ok (known : List Int) (ids : List Int) :
    ∃ ws, checkIds true known ids = Except.ok ws := by
  induction ids with
  | nil => exact ⟨[], rfl⟩
  | cons i rest ih =>
      obtain ⟨ws, hws⟩ := ih
      by_cases h : i ∈ known
      · exact ⟨ws, by rw [checkIds, if_pos h]; exact hws⟩
      · refine ⟨.skipMissingId i :: ws, ?_⟩
        rw [checkIds, if_neg h, if_pos rfl, hws]
        rfl

/-- For a present id and a valid required-IRF specification,
`DataStore.obs` either succeeds or raises `MissingRequiredHDU` — never
any other error. -/
theorem obs_ok_or_missing (t : HDUIndexTable) (oid : Int) (spec : IrfSpec)
    (irfs : List String) (rev : Bool) (hres : IrfSpec.resolve spec = some irfs)
    (hpres : oid ∈ t.map fun r => r.obs_id) (hvalid : ∀ h ∈ irfs, h ∈ ALL_IRFS) :
    (∃ d, DataStore.obs t oid spec rev = Except.ok d) ∨
    (∃ ms, DataStore.obs t oid spec rev = Except.error (ObsError.missingHDU ms)) := by
  by_cases hmiss : obsMissing t oid (effectiveRequired irfs rev) = []
  · cases hev : hduLocation t oid "events" with
    | some ev =>
        exact Or.inl ⟨_, obs_eq_ok_events t oid spec irfs rev hres hpres hvalid hmiss ev hev⟩
    | none =>
        exact Or.inl ⟨_, obs_eq_ok_noevents t oid spec irfs rev hres hpres hvalid hmiss hev⟩
  · exact Or.inr ⟨_, obs_eq_error t oid spec irfs rev hres hpres hvalid hmiss⟩

/-- The resolve loop over present ids under a valid required-IRF
specification never propagates an error: `MissingRequiredHDU` per
observation is caught and turned into a skip, and the returned
observations are exactly the resolvable ones, in order. -/
theorem resolveLoop_ok (t : HDUIndexTable) (spec : IrfSpec) (irfs : List String) (rev : Bool)
    (hres : IrfSpec.resolve spec = some irfs) (hvalid : ∀ h ∈ irfs, h ∈ ALL_IRFS)
    (ids : List Int) (hpres : ∀ i ∈ ids, i ∈ t.map fun r => r.obs_id) :
    ∃ r, resolveLoop t spec rev ids = Except.ok r ∧
      r.1 = ids.filterMap fun i => (DataStore.obs t i spec rev).toOption := by
  induction ids with
  | nil => exact ⟨([], []), rfl, rfl⟩
  | cons i rest ih =>
      obtain ⟨r, hr, hr1⟩ := ih fun j hj => hpres j (List.mem_cons_of_mem _ hj)
      rcases obs_ok_or_missing t i spec irfs rev hres (hpres i (List.mem_cons_self _ _))
          hvalid with ⟨d, hd⟩ | ⟨ms, hms⟩
      · refine ⟨(d :: r.1, r.2), ?_, ?_⟩
        · simp only [resolveLoop, hd, hr, Except.map]
        · simp only [List.filterMap_cons, hd]
          rw [show (Except.ok d : Except ObsError ObsDescriptor).toOption = some d from rfl,
            hr1]
      · refine ⟨(r.1, .skipRunMissingHDU i ms :: r.2), ?_, ?_⟩
        · simp only [resolveLoop, hms, hr, Except.map]
        · simp only [List.filterMap_cons, hms]
          rw [show (Except.error (ObsError.missingHDU ms) :
            Except ObsError ObsDescriptor).toOption = Option.none from rfl]
          exact hr1

/-- C4: (general part) a `MissingRequiredHDU` failure while resolving one
observation is caught and that observation skipped, never propagated —
with `skip_missing=True` and a valid required-IRF specification,
`get_observations` always returns ok and its observations are exactly
the resolvable requested ids, in order.  (Scenario part)
`get_observations(obs_id=[1,2,3], skip_missing=True)` on an index where
id 2 is absent returns exactly the observations for ids 1 and 3 with
exactly one skip warning, and does not raise. -/
theorem get_observations_skips_missing :
    (∀ (t : HDUIndexTable) (ids : List Int) (spec : IrfSpec) (irfs : List String) (rev : Bool),
      IrfSpec.resolve spec = some irfs → (∀ h ∈ irfs, h ∈ ALL_IRFS) →
      ∃ r, DataStore.get_observations t (some ids) true spec rev = Except.ok r ∧
        r.observations = (ids.filter fun i => i ∈ dataStoreObsIds t).filterMap
          fun i => (DataStore.obs t i spec rev).toOption) ∧
    ((DataStore.get_observations tblScenario (some [1, 2, 3]) true
        (IrfSpec.preset "full-enclosure") true).toOption.map
      (fun r => (r.observations.map fun d => d.obs_id, r.warnings)) =
      some ([1, 3], [LogMsg.skipMissingId 2])) := by
  constructor
  · intro t ids spec irfs rev hres hvalid
    obtain ⟨ws1, hws1⟩ := checkIds_true_ok (dataStoreObsIds t) ids
    have hpresSel : ∀ i ∈ ids.filter (fun i => i ∈ dataStoreObsIds t),
        i ∈ t.map fun r => r.obs_id := by
      intro i hi
      rw [List.mem_filter] at hi
      exact (mem_dataStoreObsIds t i).mp (of_decide_eq_true hi.2)
    obtain ⟨r, hr, hr1⟩ := resolveLoop_ok t spec irfs rev hres hvalid _ hpresSel
    refine ⟨{ observations := r.1, warnings := ws1 ++ dupWarnings ids ++ r.2 }, ?_, hr1⟩
    simp only [DataStore.get_observations, hws1, hr]
  · decide

/-- C4 witness: the general statement instantiated at the concrete
scenario table and request. -/
theorem get_observations_skips_missing_witness :
    (IrfSpec.resolve (IrfSpec.preset "full-enclosure") = some ["aeff", "edisp", "psf", "bkg"]) ∧
    (∃ r, DataStore.get_observations tblScenario (some [1, 2, 3]) true
        (IrfSpec.preset "full-enclosure") true = Except.ok r ∧
      r.observations = ([1, 2, 3].filter fun i => i ∈ dataStoreObsIds tblScenario).filterMap
        fun i => (DataStore.obs tblScenario i (IrfSpec.preset "full-enclosure") true).toOption) :=
  ⟨rfl,
    get_observations_skips_missing.1 tblScenario [1, 2, 3] (IrfSpec.preset "full-enclosure")
      ["aeff", "edisp", "psf", "bkg"] true rfl (by decide)⟩

/-- C8: `make_obs_table()` produces exactly one row per input event file
(in order), and fails with the `RuntimeError` if and only if the
time-reference metadata (MJDREF, TIMEUNIT, TIMESYS, TIMEREF) is not
identical across all input files. -/
theorem make_obs_table_time_consistency (i0 : EventsInfoRow) (rest : List EventsInfoRow) :
    ((∃ tbl, make_obs_table (i0 :: rest) = Except.ok tbl) ↔
      ∀ i ∈ rest, extract_time_info i = extract_time_info i0) ∧
    (¬ (∀ i ∈ rest, extract_time_info i = extract_time_info i0) →
      make_obs_table (i0 :: rest) = Except.error TableError.runtimeError) ∧
    (∀ tbl, make_obs_table (i0 :: rest) = Except.ok tbl → tbl.rows = i0 :: rest) := by
  have hiff : unique_time_info ((i0 :: rest).map extract_time_info) = true ↔
      ∀ i ∈ rest, extract_time_info i = extract_time_info i0 := by
    simp only [List.map_cons, unique_time_info, List.all_eq_true, List.mem_map,
      decide_eq_true_eq]
    constructor
    · intro hall i hi
      exact hall _ ⟨i, hi, rfl⟩
    · rintro hall x ⟨i, hi, rfl⟩
      exact hall i hi
  rw [make_obs_table]
  by_cases h : ∀ i ∈ rest, extract_time_info i = extract_time_info i0
  · rw [if_pos (hiff.mpr h)]
    refine ⟨⟨fun _ => h, fun _ => ⟨_, rfl⟩⟩, fun hc => absurd h hc, ?_⟩
    intro tbl htbl
    injection htbl with h'
    rw [← h']
  · rw [if_neg fun hh => h (hiff.mp hh)]
    refine ⟨⟨?_, fun hh => absurd hh h⟩, fun _ => rfl, ?_⟩
    · rintro ⟨tbl, htbl⟩
      simp at htbl
    · intro tbl htbl
      simp at htbl

/-- C8 witness: two concrete files with differing MJDREF make the build
fail with the `RuntimeError`. -/
theorem make_obs_table_time_consistency_witness :
    (¬ (∀ i ∈ [rowT2], extract_time_info i = extract_time_info rowT1)) ∧
    make_obs_table [rowT1, rowT2] = Except.error TableError.runtimeError :=
  ⟨by decide, (make_obs_table_time_consistency rowT1 [rowT2]).2.1 (by decide)⟩

/-- C9 (code bug): on a DRIFT-mode header that provides `ALT_PNT` and
`AZ_PNT` but no `RA_PNT` / `DEC_PNT`, `read_events_info` does NOT
succeed: the DRIFT branch stores only ALT/AZ/zenith in the info
dictionary, and the subsequent unconditional
`SkyCoord(info["RA_PNT"], info["DEC_PNT"], ...)` galactic-position
derivation raises `KeyError("RA_PNT")` — for every coordinate service and
every CALDB resolver. -/
theorem read_events_info_drift_keyerror (gal : ℚ → ℚ → ℚ × ℚ)
    (caldbFile : String → String → String → String) :
    read_events_info gal caldbFile "events.fits" Option.none driftHeader =
      Except.error (ReadError.keyError "RA_PNT") := by
  rfl

/-- C9 witness: the failure at concrete (identity) collaborator
services. -/
theorem read_events_info_drift_keyerror_witness :
    read_events_info (fun a b => (a, b)) (fun _ _ c => c) "events.fits" Option.none
      driftHeader = Except.error (ReadError.keyError "RA_PNT") :=
  read_events_info_drift_keyerror (fun a b => (a, b)) (fun _ _ c => c)

/-- C10: assigning the string `"False"` to `Parameter.frozen` sets frozen
to `True` (the setter converts the strings `"True"` and `"False"` with
`bool()`, which is `True` on any non-empty string), while any other
non-boolean value — including any other string — raises a `TypeError`,
and actual booleans are stored as given. -/
theorem frozen_setter_strings :
    frozenSetter (.pystr "False") = Except.ok true ∧
    frozenSetter (.pystr "True") = Except.ok true ∧
    (∀ s, s ≠ "True" → s ≠ "False" → frozenSetter (.pystr s) = Except.error "TypeError") ∧
    (∀ n, frozenSetter (.pyint n) = Except.error "TypeError") ∧
    (∀ b, frozenSetter (.pybool b) = Except.ok b) := by
  refine ⟨rfl, rfl, ?_, fun n => rfl, fun b => rfl⟩
  intro s h1 h2
  rw [frozenSetter, if_neg]
  rintro (h | h) <;> contradiction

/-- C10 witness: a string other than `"True"`/`"False"` raises. -/
theorem frozen_setter_strings_witness :
    ("abc" : String) ≠ "True" ∧ frozenSetter (.pystr "abc") = Except.error "TypeError" :=
  ⟨by decide, frozen_setter_strings.2.2.1 "abc" (by decide) (by decide)⟩
